import Mathlib

/-!
A shallow embedding of the Hilti loader's constraint-processing and
pose-prior-derivation logic (`gtsfm/loader/hilti_loader.py`), together with
theorems settling the specification's claims about it.

Modelling conventions:
* Real-valued quantities are modelled with `ℝ`; numpy's `np.linalg.norm` on a
  length-3 vector is the Euclidean norm, and `np.deg2rad x` is `x * π / 180`.
* Python dictionaries keyed by rig-index pairs are modelled as
  insertion-ordered association lists (a Python `dict` preserves insertion
  order and has unique keys); the Python `set` of image-index pairs is a
  `Finset (ℕ × ℕ)`.
* The gtsam geometry types (`Pose3`, `Rot3`) and the small data classes
  `Constraint` and `PosePrior` come from modules outside the source files at
  hand; they are modelled from the spec (see the individual doc comments).
* Fallible code (list indexing that can raise `IndexError`) is modelled with
  `Except Unit`.
-/

namespace Hilti

noncomputable section

/-- `NUM_CAMS = 5`: number of cameras on the rig. -/
def NUM_CAMS : ℕ := 5

/-- Triple of reals, used for translations and rotation log-vectors. -/
abbrev Vec3 := ℝ × ℝ × ℝ

/-- Euclidean norm of a 3-vector (`np.linalg.norm` applied to a length-3
array). -/
def norm3 (v : Vec3) : ℝ := Real.sqrt (v.1 ^ 2 + v.2.1 ^ 2 + v.2.2 ^ 2)

/-- Degrees to radians (`np.deg2rad`). -/
def deg2rad (x : ℝ) : ℝ := x * Real.pi / 180

/-- Modelled from the spec: gtsam's `Rot3` (part of the external
`RigidTransform` collaborator of spec §3, not among the source files). A
rotation is identified by its axis-angle (log-map) coordinates, so that the
rotation-angle norm used by `_update_stationary_constraints` is the Euclidean
norm of this vector. Composition is modelled as addition of log coordinates
(a first-order model); the spec only requires an associative composition with
identity and inverse plus a "distance from identity" query, and no claim
verified below depends on the exact form of the composition. -/
structure Rot3 where
  logvec : Vec3

/-- gtsam `Rot3.Logmap`: the axis-angle vector of a rotation. -/
def Rot3.Logmap (R : Rot3) : Vec3 := R.logvec

/-- The identity rotation (`Rot3()`). -/
def Rot3.identity : Rot3 := ⟨(0, 0, 0)⟩

/-- Rotation composition in the log-coordinate model. -/
def Rot3.comp (R1 R2 : Rot3) : Rot3 := ⟨R1.logvec + R2.logvec⟩

/-- Rotation inverse in the log-coordinate model. -/
def Rot3.inverse (R : Rot3) : Rot3 := ⟨-R.logvec⟩

/-- Modelled from the spec: gtsam's `Pose3`, a 6-degree-of-freedom rigid
transform with a rotation and a translation (spec §3 `RigidTransform`). -/
structure Pose3 where
  rot : Rot3
  trans : Vec3

/-- The identity pose, written `Pose3()` in the source. -/
def Pose3.identity : Pose3 := ⟨Rot3.identity, (0, 0, 0)⟩

/-- gtsam `pose.rotation()`. -/
def Pose3.rotation (p : Pose3) : Rot3 := p.rot

/-- gtsam `pose.translation()`. -/
def Pose3.translation (p : Pose3) : Vec3 := p.trans

/-- Pose composition (`*` on gtsam `Pose3`), in the first-order model where
rotation logs and translations compose additively. -/
def Pose3.comp (p q : Pose3) : Pose3 := ⟨p.rot.comp q.rot, p.trans + q.trans⟩

/-- Pose inverse (`pose.inverse()`), in the first-order model. -/
def Pose3.inverse (p : Pose3) : Pose3 := ⟨p.rot.inverse, -p.trans⟩

/-- gtsam `a.between(b) = a.inverse() * b`. -/
def Pose3.between (a b : Pose3) : Pose3 := (Pose3.inverse a).comp b

/-- 6×6 covariance matrices (rotation components first, then translation). -/
abbrev Cov := Matrix (Fin 6) (Fin 6) ℝ

/-- Modelled from the spec: `gtsfm.common.constraint.Constraint` (spec §3), the
working record `(a, b, aTb, covariance, count)` between rig indices `a` and
`b`. -/
structure Constraint where
  a : ℕ
  b : ℕ
  aTb : Pose3
  cov : Cov
  counts : ℕ

/-- Modelled from the spec: `PosePriorType` of `gtsfm.common.pose_prior`
(spec §3 `PosePrior` kinds HARD and SOFT). -/
inductive PosePriorType where
  | HARD_CONSTRAINT
  | SOFT_CONSTRAINT
deriving DecidableEq

/-- Modelled from the spec: `gtsfm.common.pose_prior.PosePrior`, the triple
`(value, covariance, kind)` (spec §3). -/
structure PosePrior where
  value : Pose3
  covariance : Cov
  type : PosePriorType

/-- A Python `dict` from rig-index pairs to constraints, modelled as an
insertion-ordered association list. A genuine `dict` has no duplicate keys;
theorems that need this state it as a hypothesis. -/
abbrev ConstraintMap := List ((ℕ × ℕ) × Constraint)

/-! ### Rig indexer (`camera_from_image`, `rig_from_image`,
`image_from_rig_and_camera`, lines 410-420) -/

/-- `camera_from_image(index) = index % NUM_CAMS`. -/
def camera_from_image (index : ℕ) : ℕ := index % NUM_CAMS

/-- `rig_from_image(index) = index // NUM_CAMS`. -/
def rig_from_image (index : ℕ) : ℕ := index / NUM_CAMS

/-- `image_from_rig_and_camera(rig_index, camera_idx) = rig_index * NUM_CAMS +
camera_idx`. -/
def image_from_rig_and_camera (rig_index camera_idx : ℕ) : ℕ :=
  rig_index * NUM_CAMS + camera_idx

/-! ### Stationary reclassifier (`_update_stationary_constraints`,
lines 130-152) -/

/-- `TRANSLATION_THRESHOLD = 0.02` (local constant of
`_update_stationary_constraints`). -/
def TRANSLATION_THRESHOLD : ℝ := 0.02

/-- `ROTATION_THRESHOLD = np.deg2rad(0.5)` (local constant of
`_update_stationary_constraints`). -/
def ROTATION_THRESHOLD : ℝ := deg2rad 0.5

/-- `STATIONARY_POSE_PRIOR_COVARIANCE = np.eye(6) * 1e-7`. -/
def STATIONARY_POSE_PRIOR_COVARIANCE : Cov := (1e-7 : ℝ) • 1

/-- `HARD_POSE_PRIOR_COVARIANCE = np.eye(6) * 1e-8`. -/
def HARD_POSE_PRIOR_COVARIANCE : Cov := (1e-8 : ℝ) • 1

/-- `CAM2_BACKBONE_POSE_PRIOR_COVARIANCE = np.diag([deg2rad 30 (three times),
1, 1, 1])`. -/
def CAM2_BACKBONE_POSE_PRIOR_COVARIANCE : Cov :=
  Matrix.diagonal ![deg2rad 30, deg2rad 30, deg2rad 30, 1, 1, 1]

/-- The guard of `_update_stationary_constraints`: "Not stationary if either
rotation or translation is high enough" (lines 138-142). -/
def notStationary (c : Constraint) : Prop :=
  norm3 (Rot3.Logmap c.aTb.rotation) > ROTATION_THRESHOLD ∨
    norm3 c.aTb.translation > TRANSLATION_THRESHOLD

/-- The replacement constraint built at lines 146-148: identity transform,
stationary covariance, same endpoints and observation counts. -/
def stationaryReplacement (c : Constraint) : Constraint :=
  ⟨c.a, c.b, Pose3.identity, STATIONARY_POSE_PRIOR_COVARIANCE, c.counts⟩

open Classical in
/-- `_update_stationary_constraints` (lines 130-152): each entry of the map is
kept when `notStationary` holds and replaced by `stationaryReplacement`
otherwise; keys are untouched. -/
def update_stationary_constraints (cs : ConstraintMap) : ConstraintMap :=
  cs.map (fun kc => if notStationary kc.2 then kc else (kc.1, stationaryReplacement kc.2))

/-! ### Basic facts about the stationary reclassifier -/

lemma norm3_zero_vec : norm3 ((0 : ℝ), (0 : ℝ), (0 : ℝ)) = 0 := by
  simp [norm3]

lemma rotation_threshold_nonneg : 0 ≤ ROTATION_THRESHOLD := by
  unfold ROTATION_THRESHOLD deg2rad
  positivity

lemma notStationary_stationaryReplacement (c : Constraint) :
    ¬ notStationary (stationaryReplacement c) := by
  unfold notStationary stationaryReplacement Pose3.identity Rot3.identity
  simp only [Pose3.rotation, Pose3.translation, Rot3.Logmap, norm3_zero_vec]
  push_neg
  refine ⟨rotation_threshold_nonneg, ?_⟩
  unfold TRANSLATION_THRESHOLD
  norm_num

lemma stationaryReplacement_idem (c : Constraint) :
    stationaryReplacement (stationaryReplacement c) = stationaryReplacement c := rfl

/-- C8: the Stationary Reclassifier is idempotent. -/
theorem C8_stationary_reclassifier_idempotent (cs : ConstraintMap) :
    update_stationary_constraints (update_stationary_constraints cs) =
      update_stationary_constraints cs := by
  unfold update_stationary_constraints
  rw [List.map_map]
  apply List.map_congr_left
  intro kc _
  by_cases h : notStationary kc.2
  · simp [h]
  · simp [h, notStationary_stationaryReplacement, stationaryReplacement_idem]

/-- C7: the rig indexer maps are mutually inverse: recovering an image index
from its rig and camera indices is the identity, and conversely for any rig
index and camera index below `NUM_CAMS` the round trip recovers both. -/
theorem C7_rig_indexer_roundtrip :
    (∀ i : ℕ,
        image_from_rig_and_camera (rig_from_image i) (camera_from_image i) = i) ∧
    (∀ r c : ℕ, c < NUM_CAMS →
        rig_from_image (image_from_rig_and_camera r c) = r ∧
          camera_from_image (image_from_rig_and_camera r c) = c) := by
  unfold image_from_rig_and_camera rig_from_image camera_from_image NUM_CAMS
  constructor
  · intro i
    omega
  · intro r c hc
    omega

/-- Witness for C7 at image index 13 and at rig 7, camera 3. -/
theorem C7_rig_indexer_roundtrip_witness :
    image_from_rig_and_camera (rig_from_image 13) (camera_from_image 13) = 13 ∧
      (3 < NUM_CAMS ∧
        rig_from_image (image_from_rig_and_camera 7 3) = 7 ∧
          camera_from_image (image_from_rig_and_camera 7 3) = 3) :=
  ⟨C7_rig_indexer_roundtrip.1 13,
    by decide,
    (C7_rig_indexer_roundtrip.2 7 3 (by decide)).1,
    (C7_rig_indexer_roundtrip.2 7 3 (by decide)).2⟩

/-! ### Claim C1: stationary reclassification -/

open Classical

lemma norm3_axis (x : ℝ) (hx : 0 ≤ x) : norm3 (x, 0, 0) = x := by
  unfold norm3
  norm_num
  exact Real.sqrt_sq hx

lemma rotation_threshold_lt_hundredth : ROTATION_THRESHOLD < 1 / 100 := by
  unfold ROTATION_THRESHOLD deg2rad
  have h := Real.pi_lt_d2
  linarith

/-- The concrete instance of end-to-end scenario A: a constraint between rigs
0 and 1 with rotation-angle norm 0.01 and translation norm 0.005 (and, to make
changes observable, a zero covariance and 3 observation counts). -/
def c1Cex : Constraint := ⟨0, 1, ⟨⟨(1 / 100, 0, 0)⟩, (1 / 200, 0, 0)⟩, 0, 3⟩

/-- Singleton constraint map holding `c1Cex`. -/
def c1CexMap : ConstraintMap := [((0, 1), c1Cex)]

lemma c1Cex_rot_norm : norm3 (Rot3.Logmap c1Cex.aTb.rotation) = 1 / 100 := by
  unfold c1Cex
  simp only [Pose3.rotation, Rot3.Logmap]
  exact norm3_axis _ (by norm_num)

lemma c1Cex_trans_norm : norm3 c1Cex.aTb.translation = 1 / 200 := by
  unfold c1Cex
  simp only [Pose3.translation]
  exact norm3_axis _ (by norm_num)

lemma c1Cex_notStationary : notStationary c1Cex := by
  unfold notStationary
  left
  rw [c1Cex_rot_norm]
  exact rotation_threshold_lt_hundredth

/-- C1 counterexample: the claim's concrete instance — rotation norm 0.01,
translation norm 0.005 — is NOT reclassified: 0.01 rad exceeds the rotation
threshold `deg2rad 0.5 ≈ 0.0087`, so `_update_stationary_constraints` keeps the
constraint unchanged; its transform stays different from the identity and its
covariance different from the stationary covariance. -/
theorem C1_counterexample :
    update_stationary_constraints c1CexMap = c1CexMap ∧
      norm3 (Rot3.Logmap c1Cex.aTb.rotation) = 1 / 100 ∧
      norm3 c1Cex.aTb.translation = 1 / 200 ∧
      c1Cex.aTb ≠ Pose3.identity ∧
      c1Cex.cov ≠ STATIONARY_POSE_PRIOR_COVARIANCE := by
  refine ⟨?_, c1Cex_rot_norm, c1Cex_trans_norm, ?_, ?_⟩
  · unfold update_stationary_constraints c1CexMap
    simp [c1Cex_notStationary]
  · intro h
    have hc := congrArg (fun p => p.rot.logvec.1) h
    norm_num [c1Cex, Pose3.identity, Rot3.identity] at hc
  · intro h
    have h0 := congrFun (congrFun h 0) 0
    norm_num [c1Cex, STATIONARY_POSE_PRIOR_COVARIANCE, Matrix.smul_apply,
      Matrix.one_apply] at h0

/-- C1 (amended): a constraint whose rotation-angle norm and translation norm
are both at or below the thresholds (`deg2rad 0.5` and `0.02`) is replaced by
the identity transform with the fixed stationary covariance, preserving
endpoints and observation counts; a constraint for which either norm strictly
exceeds its threshold is passed through unchanged; keys are preserved. (The
original claim's instance with rotation norm 0.01 falls in the second case,
since 0.01 rad is above the 0.5° threshold.) -/
theorem C1_stationary_amended (cs : ConstraintMap) (kc : (ℕ × ℕ) × Constraint)
    (hmem : kc ∈ cs) :
    ((norm3 (Rot3.Logmap kc.2.aTb.rotation) ≤ ROTATION_THRESHOLD ∧
        norm3 kc.2.aTb.translation ≤ TRANSLATION_THRESHOLD) →
      (kc.1, (⟨kc.2.a, kc.2.b, Pose3.identity, STATIONARY_POSE_PRIOR_COVARIANCE,
          kc.2.counts⟩ : Constraint)) ∈ update_stationary_constraints cs) ∧
    ((ROTATION_THRESHOLD < norm3 (Rot3.Logmap kc.2.aTb.rotation) ∨
        TRANSLATION_THRESHOLD < norm3 kc.2.aTb.translation) →
      kc ∈ update_stationary_constraints cs) ∧
    (update_stationary_constraints cs).map Prod.fst = cs.map Prod.fst := by
  refine ⟨?_, ?_, ?_⟩
  · intro h
    have hns : ¬ notStationary kc.2 := by
      unfold notStationary
      push_neg
      exact ⟨h.1, h.2⟩
    have hmap := List.mem_map_of_mem
      (fun kc => if notStationary kc.2 then kc else (kc.1, stationaryReplacement kc.2)) hmem
    simp only [if_neg hns] at hmap
    exact hmap
  · intro h
    have hns : notStationary kc.2 := by
      unfold notStationary
      rcases h with h | h
      · exact Or.inl h
      · exact Or.inr h
    have hmap := List.mem_map_of_mem
      (fun kc => if notStationary kc.2 then kc else (kc.1, stationaryReplacement kc.2)) hmem
    simp only [if_pos hns] at hmap
    exact hmap
  · unfold update_stationary_constraints
    rw [List.map_map]
    apply List.map_congr_left
    intro kc _
    by_cases h : notStationary kc.2 <;> simp [h]

/-- A genuinely stationary constraint: zero rotation, translation norm 0.01. -/
def c1Wit : Constraint := ⟨4, 5, ⟨⟨(0, 0, 0)⟩, (1 / 100, 0, 0)⟩, 0, 2⟩

/-- Singleton constraint map holding `c1Wit`. -/
def c1WitMap : ConstraintMap := [((4, 5), c1Wit)]

/-- Witness for `C1_stationary_amended` on the singleton map `c1WitMap`. -/
theorem C1_stationary_amended_witness :
    ((4, 5), c1Wit) ∈ c1WitMap ∧
      (((norm3 (Rot3.Logmap c1Wit.aTb.rotation) ≤ ROTATION_THRESHOLD ∧
          norm3 c1Wit.aTb.translation ≤ TRANSLATION_THRESHOLD) →
        ((4, 5), (⟨c1Wit.a, c1Wit.b, Pose3.identity,
            STATIONARY_POSE_PRIOR_COVARIANCE, c1Wit.counts⟩ : Constraint)) ∈
          update_stationary_constraints c1WitMap) ∧
      ((ROTATION_THRESHOLD < norm3 (Rot3.Logmap c1Wit.aTb.rotation) ∨
          TRANSLATION_THRESHOLD < norm3 c1Wit.aTb.translation) →
        ((4, 5), c1Wit) ∈ update_stationary_constraints c1WitMap) ∧
      (update_stationary_constraints c1WitMap).map Prod.fst = c1WitMap.map Prod.fst) :=
  ⟨by simp [c1WitMap],
    C1_stationary_amended c1WitMap ((4, 5), c1Wit) (by simp [c1WitMap])⟩

/-! ### Constraint outlier filter (`_filter_outlier_constraints`,
lines 154-189) and claim C5 -/

/-- Canonical unordered key `(min a b, max a b)` used for magnitude lookups. -/
def canon (k : ℕ × ℕ) : ℕ × ℕ := (min k.1 k.2, max k.1 k.2)

/-- Translation magnitude `np.linalg.norm(constraint.aTb.translation())`. -/
def magOf (c : Constraint) : ℝ := norm3 c.aTb.translation

/-- The `constraint_magnitudes` dictionary (lines 158-162) as a lookup. The
dictionary is built by iterating the map in insertion order and writing the
translation norm under the canonical key, so a later entry with the same
canonical key overwrites an earlier one; the lookup therefore returns the
magnitude of the LAST entry whose canonical key matches. -/
def magnitudeAt (cs : ConstraintMap) (k : ℕ × ℕ) : Option ℝ :=
  (cs.reverse.find? (fun kc => canon kc.1 == k)).map (fun kc => magOf kc.2)

/-- `ERROR_MARGIN = 0.1` (local constant of `is_higher_step_magnitude_lesser`,
line 165). -/
def ERROR_MARGIN : ℝ := 0.1

/-- `is_higher_step_magnitude_lesser` (lines 164-169): the recorded magnitude
of the longer-baseline pair `(c, d + step_size)` exists and is smaller than the
recorded magnitude of `(c, d)` by more than the error margin. The
unconditional access `all_magnitudes[(c, d)]` cannot fail at the call sites
(the key is the canonical key of an entry of the map); the model returns
`False` when either magnitude is missing. -/
def is_higher_step_magnitude_lesser (cs : ConstraintMap) (a b step_size : ℕ) : Prop :=
  match magnitudeAt cs (min a b, max a b), magnitudeAt cs (min a b, max a b + step_size) with
  | some this_magnitude, some step_magnitude => this_magnitude - step_magnitude > ERROR_MARGIN
  | _, _ => False

/-- `FILTERED_COVARIANCE = np.diag([deg2rad 60, deg2rad 60, deg2rad 60, 10,
10, 10])` (lines 172-174). -/
def FILTERED_COVARIANCE : Cov :=
  Matrix.diagonal ![deg2rad 60, deg2rad 60, deg2rad 60, 10, 10, 10]

/-- `_filter_outlier_constraints` (lines 154-189): pairs with index gap other
than 1 pass through; a gap-1 pair whose 2-step or 3-step magnitude is lesser
(beyond the margin) keeps its transform and counts but gets
`FILTERED_COVARIANCE`; every other pair passes through. -/
def filter_outlier_constraints (cs : ConstraintMap) : ConstraintMap :=
  cs.map (fun kc =>
    if ((kc.1.1 : ℤ) - (kc.1.2 : ℤ)).natAbs ≠ 1 then kc
    else if is_higher_step_magnitude_lesser cs kc.1.1 kc.1.2 1 ∨
        is_higher_step_magnitude_lesser cs kc.1.1 kc.1.2 2 then
      (kc.1, ⟨kc.2.a, kc.2.b, kc.2.aTb, FILTERED_COVARIANCE, kc.2.counts⟩)
    else kc)

lemma find?_canon_eq {l : List ((ℕ × ℕ) × Constraint)}
    (hp : l.Pairwise fun x y => canon x.1 ≠ canon y.1)
    {e : (ℕ × ℕ) × Constraint} (he : e ∈ l) :
    l.find? (fun kc => canon kc.1 == canon e.1) = some e := by
  induction l with
  | nil => cases he
  | cons x t ih =>
    rcases List.pairwise_cons.mp hp with ⟨hx, ht⟩
    rcases List.mem_cons.mp he with rfl | het
    · rw [List.find?_cons_of_pos _ (by simp)]
    · rw [List.find?_cons_of_neg _ (by simp [hx e het])]
      exact ih ht het

lemma magnitudeAt_of_mem (cs : ConstraintMap)
    (hp : cs.Pairwise fun x y => canon x.1 ≠ canon y.1)
    {e : (ℕ × ℕ) × Constraint} (he : e ∈ cs) :
    magnitudeAt cs (canon e.1) = some (magOf e.2) := by
  unfold magnitudeAt
  have hp' : cs.reverse.Pairwise fun x y => canon x.1 ≠ canon y.1 :=
    List.pairwise_reverse.mpr (hp.imp fun h => Ne.symm h)
  rw [find?_canon_eq hp' (List.mem_reverse.mpr he)]
  rfl

lemma exists_of_magnitudeAt (cs : ConstraintMap) (k : ℕ × ℕ) (r : ℝ)
    (h : magnitudeAt cs k = some r) :
    ∃ e ∈ cs, canon e.1 = k ∧ magOf e.2 = r := by
  unfold magnitudeAt at h
  cases hf : cs.reverse.find? (fun kc => canon kc.1 == k) with
  | none => rw [hf] at h; cases h
  | some e =>
    rw [hf] at h
    have h1 := List.find?_some hf
    have h2 := List.mem_of_find?_eq_some hf
    exact ⟨e, List.mem_reverse.mp h2, by simpa using h1, Option.some.inj h⟩

lemma is_higher_iff (cs : ConstraintMap)
    (hp : cs.Pairwise fun x y => canon x.1 ≠ canon y.1)
    (kc : (ℕ × ℕ) × Constraint) (hmem : kc ∈ cs) (m : ℕ)
    (hm : canon kc.1 = (m, m + 1)) (step : ℕ) :
    is_higher_step_magnitude_lesser cs kc.1.1 kc.1.2 step ↔
      ∃ e ∈ cs, canon e.1 = (m, m + 1 + step) ∧
        magOf kc.2 - magOf e.2 > ERROR_MARGIN := by
  have hmin : min kc.1.1 kc.1.2 = m := congrArg Prod.fst hm
  have hmax : max kc.1.1 kc.1.2 = m + 1 := congrArg Prod.snd hm
  have h1 : magnitudeAt cs (m, m + 1) = some (magOf kc.2) := by
    have h := magnitudeAt_of_mem cs hp hmem
    rwa [hm] at h
  unfold is_higher_step_magnitude_lesser
  rw [hmin, hmax, h1]
  cases h2 : magnitudeAt cs (m, m + 1 + step) with
  | none =>
    constructor
    · intro h
      cases h
    · rintro ⟨e, he, hc, -⟩
      have h := magnitudeAt_of_mem cs hp he
      rw [hc, h2] at h
      cases h
  | some r =>
    constructor
    · intro h
      obtain ⟨e, he, hc, hr⟩ := exists_of_magnitudeAt cs _ r h2
      exact ⟨e, he, hc, by rw [hr]; exact h⟩
    · rintro ⟨e, he, hc, hgt⟩
      have h := magnitudeAt_of_mem cs hp he
      rw [hc, h2] at h
      have hr := Option.some.inj h
      show magOf kc.2 - r > ERROR_MARGIN
      rw [hr]
      exact hgt

/-- The reclassification condition of the claim, stated on entries of the map:
the 2-step or the 3-step constraint sharing the same smaller endpoint exists,
and its translation magnitude is smaller than this constraint's magnitude by
more than the error margin. -/
def replaceCondition (cs : ConstraintMap) (kc : (ℕ × ℕ) × Constraint) : Prop :=
  (∃ e ∈ cs, canon e.1 = (min kc.1.1 kc.1.2, min kc.1.1 kc.1.2 + 2) ∧
      magOf kc.2 - magOf e.2 > ERROR_MARGIN) ∨
  (∃ e ∈ cs, canon e.1 = (min kc.1.1 kc.1.2, min kc.1.1 kc.1.2 + 3) ∧
      magOf kc.2 - magOf e.2 > ERROR_MARGIN)

/-- Postcondition of the Outlier Filter asserted by claim C5: same keys and
cardinality; every output constraint is an input constraint with the same key,
endpoints, transform and counts, and either the original covariance or
`FILTERED_COVARIANCE`; a gap-1 entry is reclassified (transform and counts
kept, covariance replaced) exactly under `replaceCondition`, and passes
through unchanged otherwise; a gap-other-than-1 entry passes through. -/
def C5Postcondition (cs : ConstraintMap) : Prop :=
  ((filter_outlier_constraints cs).map Prod.fst = cs.map Prod.fst) ∧
  ((filter_outlier_constraints cs).length = cs.length) ∧
  (∀ kc' ∈ filter_outlier_constraints cs, ∃ kc ∈ cs, kc'.1 = kc.1 ∧
      kc'.2.a = kc.2.a ∧ kc'.2.b = kc.2.b ∧ kc'.2.aTb = kc.2.aTb ∧
      kc'.2.counts = kc.2.counts ∧
      (kc'.2.cov = kc.2.cov ∨ kc'.2.cov = FILTERED_COVARIANCE)) ∧
  (∀ kc ∈ cs,
    (((kc.1.1 : ℤ) - (kc.1.2 : ℤ)).natAbs = 1 →
      (replaceCondition cs kc →
        (kc.1, (⟨kc.2.a, kc.2.b, kc.2.aTb, FILTERED_COVARIANCE,
            kc.2.counts⟩ : Constraint)) ∈ filter_outlier_constraints cs) ∧
      (¬ replaceCondition cs kc → kc ∈ filter_outlier_constraints cs)) ∧
    (((kc.1.1 : ℤ) - (kc.1.2 : ℤ)).natAbs ≠ 1 →
      kc ∈ filter_outlier_constraints cs))

/-- C5: on a constraint map with at most one entry per unordered pair (the
spec's constraint-map invariant, which a Python `dict` built from canonically
compared constraints satisfies), the Outlier Filter meets the claimed
postcondition. -/
theorem C5_outlier_filter (cs : ConstraintMap)
    (hp : cs.Pairwise fun x y => canon x.1 ≠ canon y.1) :
    C5Postcondition cs := by
  refine ⟨?_, ?_, ?_, ?_⟩
  · unfold filter_outlier_constraints
    rw [List.map_map]
    apply List.map_congr_left
    intro kc _
    by_cases h1 : ((kc.1.1 : ℤ) - (kc.1.2 : ℤ)).natAbs ≠ 1
    · simp only [Function.comp_apply, if_pos h1]
    · by_cases h2 : is_higher_step_magnitude_lesser cs kc.1.1 kc.1.2 1 ∨
          is_higher_step_magnitude_lesser cs kc.1.1 kc.1.2 2
      · simp only [Function.comp_apply, if_neg h1, if_pos h2]
      · simp only [Function.comp_apply, if_neg h1, if_neg h2]
  · unfold filter_outlier_constraints
    rw [List.length_map]
  · intro kc' hkc'
    rcases List.mem_map.mp hkc' with ⟨kc, hmem, rfl⟩
    split
    · exact ⟨kc, hmem, rfl, rfl, rfl, rfl, rfl, Or.inl rfl⟩
    · split
      · exact ⟨kc, hmem, rfl, rfl, rfl, rfl, rfl, Or.inr rfl⟩
      · exact ⟨kc, hmem, rfl, rfl, rfl, rfl, rfl, Or.inl rfl⟩
  · intro kc hmem
    have hmap := List.mem_map_of_mem (fun kc =>
      if ((kc.1.1 : ℤ) - (kc.1.2 : ℤ)).natAbs ≠ 1 then kc
      else if is_higher_step_magnitude_lesser cs kc.1.1 kc.1.2 1 ∨
          is_higher_step_magnitude_lesser cs kc.1.1 kc.1.2 2 then
        (kc.1, (⟨kc.2.a, kc.2.b, kc.2.aTb, FILTERED_COVARIANCE,
          kc.2.counts⟩ : Constraint))
      else kc) hmem
    constructor
    · intro hgap
      have hm : canon kc.1 = (min kc.1.1 kc.1.2, min kc.1.1 kc.1.2 + 1) := by
        unfold canon
        have : max kc.1.1 kc.1.2 = min kc.1.1 kc.1.2 + 1 := by omega
        rw [this]
      have hiff : (is_higher_step_magnitude_lesser cs kc.1.1 kc.1.2 1 ∨
          is_higher_step_magnitude_lesser cs kc.1.1 kc.1.2 2) ↔
            replaceCondition cs kc := by
        unfold replaceCondition
        rw [is_higher_iff cs hp kc hmem _ hm 1, is_higher_iff cs hp kc hmem _ hm 2]
      constructor
      · intro hcond
        have hc' := hiff.mpr hcond
        simp only [if_neg (not_not_intro hgap), if_pos hc'] at hmap
        exact hmap
      · intro hcond
        have hc' : ¬ (is_higher_step_magnitude_lesser cs kc.1.1 kc.1.2 1 ∨
            is_higher_step_magnitude_lesser cs kc.1.1 kc.1.2 2) :=
          fun h => hcond (hiff.mp h)
        simp only [if_neg (not_not_intro hgap), if_neg hc'] at hmap
        exact hmap
    · intro hgap
      simp only [if_pos hgap] at hmap
      exact hmap

/-- First constraint of end-to-end scenario B: the 1-step pair `(2, 3)` with
translation magnitude 5. -/
def c5a : Constraint := ⟨2, 3, ⟨⟨(0, 0, 0)⟩, (5, 0, 0)⟩, 0, 1⟩

/-- Second constraint of end-to-end scenario B: the 2-step pair `(2, 4)` with
translation magnitude 4.8. -/
def c5b : Constraint := ⟨2, 4, ⟨⟨(0, 0, 0)⟩, (24 / 5, 0, 0)⟩, 0, 1⟩

/-- The two-entry constraint map of scenario B. -/
def c5Map : ConstraintMap := [((2, 3), c5a), ((2, 4), c5b)]

/-- Witness for `C5_outlier_filter` on the scenario-B map. -/
theorem C5_outlier_filter_witness :
    (c5Map.Pairwise fun x y => canon x.1 ≠ canon y.1) ∧ C5Postcondition c5Map :=
  ⟨by decide, C5_outlier_filter c5Map (by decide)⟩

/-! ### Pose-prior deriver (`get_relative_pose_prior`, lines 359-405) -/

/-- The loader state assembled by `__init__` that `get_relative_pose_prior`
and `get_relative_pose_priors` read: number of rig poses, subsample stride,
backbone flag, the camera-to-IMU calibration table (a dict with keys
`0 .. NUM_CAMS - 1`, modelled as a total function that is only ever queried at
`index % NUM_CAMS` and at the literal `2`), the precomputed
`_cam2_J_imu_relative = camTimu[2].AdjointMap()` matrix (computed once by the
external gtsam adjoint, held as state), the fastlio odometry track, and the
filtered constraint map. -/
structure HiltiLoader where
  num_rig_poses : ℕ
  subsample : ℕ
  add_backbone : Bool
  cam_T_imu_poses : ℕ → Pose3
  cam2_J_imu_relative : Cov
  fastlio_poses : List Pose3
  constraints : ConstraintMap

/-- Dictionary lookup `self._constraints[(r1, r2)]` guarded by
`(r1, r2) in self._constraints`: the first (and, in a genuine dict, only)
entry with the given ordered key. -/
def lookupConstraint (cs : ConstraintMap) (k : ℕ × ℕ) : Option Constraint :=
  (cs.find? (fun kc => kc.1 == k)).map (fun kc => kc.2)

/-- Modelled from the spec: gtsam `pose.equals(Pose3(), 1e-6)` — every
component of the pose is within 1e-6 of the identity's. -/
def equalsIdentity (p : Pose3) : Prop :=
  |p.rot.logvec.1| ≤ 1e-6 ∧ |p.rot.logvec.2.1| ≤ 1e-6 ∧ |p.rot.logvec.2.2| ≤ 1e-6 ∧
    |p.trans.1| ≤ 1e-6 ∧ |p.trans.2.1| ≤ 1e-6 ∧ |p.trans.2.2| ≤ 1e-6

/-- `get_relative_pose_prior` (lines 359-405), with its four branches in
source order. Two modelling notes: the backbone branch indexes
`self._fastlio_poses[rig]` directly, which raises `IndexError` when a rig
index is not below the track length — modelled as `Except.error ()`; and the
two `return` statements of the constraint branch (lines 390-393) differ only
in the prior type, so they are merged into one value whose type field selects
HARD when the propagated transform equals the identity within tolerance. -/
def get_relative_pose_prior (L : HiltiLoader) (i1 i2 : ℕ) :
    Except Unit (Option PosePrior) :=
  if rig_from_image i1 = rig_from_image i2 then
    Except.ok (some ⟨Pose3.comp (L.cam_T_imu_poses (camera_from_image i1))
        (Pose3.inverse (L.cam_T_imu_poses (camera_from_image i2))),
      HARD_POSE_PRIOR_COVARIANCE, PosePriorType.HARD_CONSTRAINT⟩)
  else if h : camera_from_image i1 = 2 ∧ camera_from_image i2 = 2 ∧
      (lookupConstraint L.constraints
        (rig_from_image i1, rig_from_image i2)).isSome then
    Except.ok (some
      ⟨Pose3.comp (Pose3.comp (L.cam_T_imu_poses 2)
          ((lookupConstraint L.constraints
            (rig_from_image i1, rig_from_image i2)).get h.2.2).aTb)
        (Pose3.inverse (L.cam_T_imu_poses 2)),
      L.cam2_J_imu_relative *
        ((lookupConstraint L.constraints
          (rig_from_image i1, rig_from_image i2)).get h.2.2).cov *
        Matrix.transpose L.cam2_J_imu_relative,
      if equalsIdentity (Pose3.comp (Pose3.comp (L.cam_T_imu_poses 2)
          ((lookupConstraint L.constraints
            (rig_from_image i1, rig_from_image i2)).get h.2.2).aTb)
        (Pose3.inverse (L.cam_T_imu_poses 2))) then PosePriorType.HARD_CONSTRAINT
      else PosePriorType.SOFT_CONSTRAINT⟩)
  else if camera_from_image i1 = 2 ∧ camera_from_image i2 = 2 then
    if h2 : rig_from_image i1 < L.fastlio_poses.length ∧
        rig_from_image i2 < L.fastlio_poses.length then
      Except.ok (some ⟨Pose3.comp (Pose3.comp (L.cam_T_imu_poses 2)
          (Pose3.between (L.fastlio_poses.get ⟨rig_from_image i1, h2.1⟩)
            (L.fastlio_poses.get ⟨rig_from_image i2, h2.2⟩)))
        (Pose3.inverse (L.cam_T_imu_poses 2)),
        CAM2_BACKBONE_POSE_PRIOR_COVARIANCE, PosePriorType.SOFT_CONSTRAINT⟩)
    else Except.error ()
  else Except.ok none

/-- Which of the four guards of `get_relative_pose_prior` fires: 1 = same rig,
2 = reference-camera pair with a recorded (ordered) constraint, 3 =
reference-camera backbone fallback, 4 = no relationship. Mirrors the branch
structure of lines 378-405 exactly. -/
def priorBranch (L : HiltiLoader) (i1 i2 : ℕ) : ℕ :=
  if rig_from_image i1 = rig_from_image i2 then 1
  else if camera_from_image i1 = 2 ∧ camera_from_image i2 = 2 ∧
      (lookupConstraint L.constraints
        (rig_from_image i1, rig_from_image i2)).isSome then 2
  else if camera_from_image i1 = 2 ∧ camera_from_image i2 = 2 then 3
  else 4

/-! ### Claim C6: same-rig pairs always get a HARD calibration prior -/

/-- C6: for two images on the same rig, the deriver always returns a prior;
its kind is HARD, its value is `camTimu[cam i1] ∘ camTimu[cam i2]⁻¹`, its
covariance has every diagonal entry below the small bound 1e-6, and the
result does not depend on the constraint map at all. -/
theorem C6_same_rig_hard_prior (L : HiltiLoader) (i1 i2 : ℕ)
    (h : rig_from_image i1 = rig_from_image i2) :
    get_relative_pose_prior L i1 i2 = Except.ok (some
      ⟨Pose3.comp (L.cam_T_imu_poses (camera_from_image i1))
          (Pose3.inverse (L.cam_T_imu_poses (camera_from_image i2))),
        HARD_POSE_PRIOR_COVARIANCE, PosePriorType.HARD_CONSTRAINT⟩) ∧
    (∀ j : Fin 6, HARD_POSE_PRIOR_COVARIANCE j j < 1e-6) ∧
    (∀ cs : ConstraintMap,
      get_relative_pose_prior { L with constraints := cs } i1 i2 =
        get_relative_pose_prior L i1 i2) := by
  refine ⟨?_, ?_, ?_⟩
  · unfold get_relative_pose_prior
    rw [if_pos h]
  · intro j
    unfold HARD_POSE_PRIOR_COVARIANCE
    rw [Matrix.smul_apply, Matrix.one_apply_eq]
    norm_num
  · intro cs
    unfold get_relative_pose_prior
    simp only [if_pos h]

/-- Loader used to witness the same-rig claim: a single rig, identity
calibration. -/
def L6 : HiltiLoader := ⟨1, 1, true, fun _ => Pose3.identity, 1, [], []⟩

/-- Witness for `C6_same_rig_hard_prior` at images 3 and 1 (both on rig 0). -/
theorem C6_same_rig_hard_prior_witness :
    rig_from_image 3 = rig_from_image 1 ∧
      (get_relative_pose_prior L6 3 1 = Except.ok (some
        ⟨Pose3.comp (L6.cam_T_imu_poses (camera_from_image 3))
            (Pose3.inverse (L6.cam_T_imu_poses (camera_from_image 1))),
          HARD_POSE_PRIOR_COVARIANCE, PosePriorType.HARD_CONSTRAINT⟩) ∧
      (∀ j : Fin 6, HARD_POSE_PRIOR_COVARIANCE j j < 1e-6) ∧
      (∀ cs : ConstraintMap,
        get_relative_pose_prior { L6 with constraints := cs } 3 1 =
          get_relative_pose_prior L6 3 1)) :=
  ⟨by decide, C6_same_rig_hard_prior L6 3 1 (by decide)⟩

/-! ### Claim C2: reference-camera pair with no constraint and a too-short
odometry track -/

/-- Loader with two rig poses but an empty odometry track and no
constraints. -/
def L2 : HiltiLoader := ⟨2, 1, true, fun _ => Pose3.identity, 1, [], []⟩

/-- C2 counterexample: for images 2 and 7 (reference camera on rigs 0 and 1),
no recorded constraint and an odometry track shorter than the rig count, the
deriver raises (IndexError on `self._fastlio_poses[rig]`) instead of
returning an absent result. -/
theorem C2_counterexample :
    get_relative_pose_prior L2 2 7 = Except.error () ∧
      (Except.error () : Except Unit (Option PosePrior)) ≠ Except.ok none := by
  constructor
  · rfl
  · simp

/-- C2 (amended): for a pair of images both on the reference camera on
different rigs with no recorded constraint for the ordered rig pair, when
either rig index is not below the odometry-track length, `get_relative_pose_prior`
raises an index error (modelled as `Except.error ()`) rather than returning
an absent result. -/
theorem C2_short_track_amended (L : HiltiLoader) (i1 i2 : ℕ)
    (h1 : camera_from_image i1 = 2) (h2 : camera_from_image i2 = 2)
    (h3 : rig_from_image i1 ≠ rig_from_image i2)
    (h4 : lookupConstraint L.constraints
      (rig_from_image i1, rig_from_image i2) = none)
    (h5 : L.fastlio_poses.length ≤ rig_from_image i1 ∨
      L.fastlio_poses.length ≤ rig_from_image i2) :
    get_relative_pose_prior L i1 i2 = Except.error () := by
  unfold get_relative_pose_prior
  rw [if_neg h3]
  have hno : ¬ (camera_from_image i1 = 2 ∧ camera_from_image i2 = 2 ∧
      (lookupConstraint L.constraints
        (rig_from_image i1, rig_from_image i2)).isSome) := by
    rintro ⟨-, -, hs⟩
    rw [h4] at hs
    simp at hs
  rw [dif_neg hno, if_pos ⟨h1, h2⟩, dif_neg (by omega)]

/-- Witness for `C2_short_track_amended` on the loader `L2` at images 2, 7. -/
theorem C2_short_track_amended_witness :
    (camera_from_image 2 = 2 ∧ camera_from_image 7 = 2 ∧
      rig_from_image 2 ≠ rig_from_image 7 ∧
      lookupConstraint L2.constraints (rig_from_image 2, rig_from_image 7) = none ∧
      (L2.fastlio_poses.length ≤ rig_from_image 2 ∨
        L2.fastlio_poses.length ≤ rig_from_image 7)) ∧
    get_relative_pose_prior L2 2 7 = Except.error () :=
  ⟨⟨by decide, by decide, by decide, rfl, Or.inl (by decide)⟩,
    C2_short_track_amended L2 2 7 (by decide) (by decide) (by decide) rfl
      (Or.inl (by decide))⟩

/-! ### Claim C3: the constraint branch keys on the ordered rig pair -/

/-- A constraint recorded with stored orientation `(1, 0)` — unordered rig
pair `{0, 1}`. -/
def c3Con : Constraint := ⟨1, 0, Pose3.identity, 0, 1⟩

/-- Loader whose constraint map records only the orientation `(1, 0)`, with an
odometry track long enough for the backbone fallback. -/
def L3 : HiltiLoader :=
  ⟨2, 1, false, fun _ => Pose3.identity, 1, [Pose3.identity, Pose3.identity],
    [((1, 0), c3Con)]⟩

/-- C3 counterexample: the map records a constraint for the unordered rig pair
`{0, 1}` (stored orientation `(1, 0)`), the query `(2, 7)` has both images on
the reference camera with rig pair `(0, 1)`, yet the deriver takes the
backbone branch 3, not the constraint-backed branch 2, because the lookup is
on the ordered pair. -/
theorem C3_counterexample :
    L3.constraints.map Prod.fst = [(1, 0)] ∧
      camera_from_image 2 = 2 ∧ camera_from_image 7 = 2 ∧
      rig_from_image 2 = 0 ∧ rig_from_image 7 = 1 ∧
      priorBranch L3 2 7 = 3 ∧ priorBranch L3 2 7 ≠ 2 := by
  refine ⟨rfl, by decide, by decide, by decide, by decide, by decide, by decide⟩

/-- C3 (amended): the constraint map is keyed by ordered rig pairs, and for a
reference-camera pair on different rigs the deriver takes the
constraint-backed branch exactly when the ordered pair
`(rig i1, rig i2)` is a key of the map; when it is, the result is the
constraint's transform and covariance propagated through the reference-camera
frame. A constraint stored only in the opposite orientation is not consulted. -/
theorem C3_ordered_constraint_branch (L : HiltiLoader) (i1 i2 : ℕ)
    (h1 : camera_from_image i1 = 2) (h2 : camera_from_image i2 = 2)
    (h3 : rig_from_image i1 ≠ rig_from_image i2) :
    (priorBranch L i1 i2 = 2 ↔
      (lookupConstraint L.constraints
        (rig_from_image i1, rig_from_image i2)).isSome) ∧
    (∀ c : Constraint,
      lookupConstraint L.constraints (rig_from_image i1, rig_from_image i2) =
        some c →
      get_relative_pose_prior L i1 i2 = Except.ok (some
        ⟨Pose3.comp (Pose3.comp (L.cam_T_imu_poses 2) c.aTb)
            (Pose3.inverse (L.cam_T_imu_poses 2)),
          L.cam2_J_imu_relative * c.cov * Matrix.transpose L.cam2_J_imu_relative,
          if equalsIdentity (Pose3.comp (Pose3.comp (L.cam_T_imu_poses 2) c.aTb)
              (Pose3.inverse (L.cam_T_imu_poses 2))) then
            PosePriorType.HARD_CONSTRAINT
          else PosePriorType.SOFT_CONSTRAINT⟩)) := by
  constructor
  · unfold priorBranch
    rw [if_neg h3]
    by_cases hs : (lookupConstraint L.constraints
        (rig_from_image i1, rig_from_image i2)).isSome
    · rw [if_pos ⟨h1, h2, hs⟩]
      exact iff_of_true rfl hs
    · rw [if_neg (fun hh => hs hh.2.2), if_pos ⟨h1, h2⟩]
      exact iff_of_false (by norm_num) hs
  · intro c hc
    unfold get_relative_pose_prior
    rw [if_neg h3]
    have hs : (lookupConstraint L.constraints
        (rig_from_image i1, rig_from_image i2)).isSome := by
      rw [hc]
      rfl
    rw [dif_pos ⟨h1, h2, hs⟩]
    simp only [hc, Option.get_some]

/-- A constraint recorded with stored orientation `(0, 1)`. -/
def c3WitCon : Constraint := ⟨0, 1, Pose3.identity, 0, 2⟩

/-- Loader whose constraint map records the orientation `(0, 1)`. -/
def L3w : HiltiLoader :=
  ⟨2, 1, false, fun _ => Pose3.identity, 1, [], [((0, 1), c3WitCon)]⟩

/-- Witness for `C3_ordered_constraint_branch` on `L3w` at images 2, 7, with
the recorded constraint `c3WitCon`. -/
theorem C3_ordered_constraint_branch_witness :
    (camera_from_image 2 = 2 ∧ camera_from_image 7 = 2 ∧
      rig_from_image 2 ≠ rig_from_image 7 ∧
      lookupConstraint L3w.constraints (rig_from_image 2, rig_from_image 7) =
        some c3WitCon) ∧
    (priorBranch L3w 2 7 = 2 ↔
      (lookupConstraint L3w.constraints
        (rig_from_image 2, rig_from_image 7)).isSome) ∧
    get_relative_pose_prior L3w 2 7 = Except.ok (some
      ⟨Pose3.comp (Pose3.comp (L3w.cam_T_imu_poses 2) c3WitCon.aTb)
          (Pose3.inverse (L3w.cam_T_imu_poses 2)),
        L3w.cam2_J_imu_relative * c3WitCon.cov *
          Matrix.transpose L3w.cam2_J_imu_relative,
        if equalsIdentity (Pose3.comp (Pose3.comp (L3w.cam_T_imu_poses 2)
            c3WitCon.aTb) (Pose3.inverse (L3w.cam_T_imu_poses 2))) then
          PosePriorType.HARD_CONSTRAINT
        else PosePriorType.SOFT_CONSTRAINT⟩) :=
  ⟨⟨by decide, by decide, by decide, rfl⟩,
    (C3_ordered_constraint_branch L3w 2 7 (by decide) (by decide) (by decide)).1,
    (C3_ordered_constraint_branch L3w 2 7 (by decide) (by decide)
      (by decide)).2 c3WitCon rfl⟩

/-! ### Pair-set builder (`get_relative_pose_priors`, lines 422-452) -/

/-- The per-rig "star" pairs (lines 424-430): for every rig index produced by
`range(0, num_rig_poses, subsample)` — exactly the multiples of the stride
below the count, for a stride of at least 1 — the pairs from cameras 0 and 1
to camera 2 and from camera 2 to cameras 3 and 4. (Python raises on a stride
of 0; the model is only used with a positive stride.) -/
def star_pairs (num s : ℕ) : Finset (ℕ × ℕ) :=
  ((Finset.range num).filter (fun r => s ∣ r)).biUnion (fun r =>
    {(image_from_rig_and_camera r 0, image_from_rig_and_camera r 2),
     (image_from_rig_and_camera r 1, image_from_rig_and_camera r 2),
     (image_from_rig_and_camera r 2, image_from_rig_and_camera r 3),
     (image_from_rig_and_camera r 2, image_from_rig_and_camera r 4)})

/-- The constraint-derived pairs (lines 432-434): every rig-pair key of the
constraint map, translated to reference-camera image indices in its stored
orientation. -/
def constraint_pairs (cs : ConstraintMap) : Finset (ℕ × ℕ) :=
  (cs.map (fun kc =>
    (image_from_rig_and_camera kc.1.1 2, image_from_rig_and_camera kc.1.2 2))).toFinset

/-- The backbone pairs (lines 437-441): every consecutive rig pair
`(a, a + 1)` with `a < num_rig_poses - 1`, on the reference camera. -/
def backbone_pairs (num : ℕ) : Finset (ℕ × ℕ) :=
  (Finset.range (num - 1)).image (fun a =>
    (image_from_rig_and_camera a 2, image_from_rig_and_camera (a + 1) 2))

/-- The `unique_pairs` set assembled by `get_relative_pose_priors`
(lines 423-441). -/
def unique_pairs (L : HiltiLoader) : Finset (ℕ × ℕ) :=
  star_pairs L.num_rig_poses L.subsample ∪ constraint_pairs L.constraints ∪
    (if L.add_backbone then backbone_pairs L.num_rig_poses else ∅)

/-- Did the derivation produce a present prior? -/
def priorIsSome : Except Unit (Option PosePrior) → Bool
  | Except.ok (some _) => true
  | _ => false

/-- Did the derivation raise? -/
def priorIsError : Except Unit (Option PosePrior) → Bool
  | Except.error _ => true
  | _ => false

/-- `get_relative_pose_priors` (lines 422-452), modelled on its key set: the
dict comprehension at line 449 evaluates the deriver on every pair (an
`IndexError` in any evaluation propagates, modelled as the error case) and
line 450 keeps exactly the pairs whose prior is present. The debugger call
`pdb.set_trace()` at lines 445-447 is an input-blocking effect with no data
flow; it has no counterpart in the pure model (see claim C9). -/
def get_relative_pose_priors (L : HiltiLoader) : Except Unit (Finset (ℕ × ℕ)) :=
  if ((unique_pairs L).filter
      (fun p => priorIsError (get_relative_pose_prior L p.1 p.2) = true)).Nonempty then
    Except.error ()
  else
    Except.ok ((unique_pairs L).filter
      (fun p => priorIsSome (get_relative_pose_prior L p.1 p.2) = true))

/-! ### Helper lemmas about the pair sets and the deriver's outcomes -/

lemma star_pairs_mem {num s : ℕ} {p : ℕ × ℕ} (hp : p ∈ star_pairs num s) :
    ∃ r, r < num ∧ s ∣ r ∧
      (p = (image_from_rig_and_camera r 0, image_from_rig_and_camera r 2) ∨
       p = (image_from_rig_and_camera r 1, image_from_rig_and_camera r 2) ∨
       p = (image_from_rig_and_camera r 2, image_from_rig_and_camera r 3) ∨
       p = (image_from_rig_and_camera r 2, image_from_rig_and_camera r 4)) := by
  unfold star_pairs at hp
  rcases Finset.mem_biUnion.mp hp with ⟨r, hr, hmem⟩
  rcases Finset.mem_filter.mp hr with ⟨hrange, hdvd⟩
  refine ⟨r, Finset.mem_range.mp hrange, hdvd, ?_⟩
  simpa using hmem

lemma star_pairs_mem_all (num s r : ℕ) (hr : r < num) (hdvd : s ∣ r) :
    (image_from_rig_and_camera r 0, image_from_rig_and_camera r 2) ∈ star_pairs num s ∧
    (image_from_rig_and_camera r 1, image_from_rig_and_camera r 2) ∈ star_pairs num s ∧
    (image_from_rig_and_camera r 2, image_from_rig_and_camera r 3) ∈ star_pairs num s ∧
    (image_from_rig_and_camera r 2, image_from_rig_and_camera r 4) ∈ star_pairs num s := by
  have hrmem : r ∈ (Finset.range num).filter (fun r => s ∣ r) :=
    Finset.mem_filter.mpr ⟨Finset.mem_range.mpr hr, hdvd⟩
  unfold star_pairs
  refine ⟨?_, ?_, ?_, ?_⟩ <;> exact Finset.mem_biUnion.mpr ⟨r, hrmem, by simp⟩

lemma constraint_pairs_mem {cs : ConstraintMap} {p : ℕ × ℕ}
    (hp : p ∈ constraint_pairs cs) :
    ∃ kc ∈ cs, p = (image_from_rig_and_camera kc.1.1 2,
      image_from_rig_and_camera kc.1.2 2) := by
  unfold constraint_pairs at hp
  rcases List.mem_map.mp (List.mem_toFinset.mp hp) with ⟨kc, hmem, heq⟩
  exact ⟨kc, hmem, heq.symm⟩

lemma rig_cam_eval (r c : ℕ) (hc : c < NUM_CAMS) :
    rig_from_image (image_from_rig_and_camera r c) = r ∧
      camera_from_image (image_from_rig_and_camera r c) = c := by
  unfold rig_from_image camera_from_image image_from_rig_and_camera NUM_CAMS at *
  omega

lemma lookup_isSome_of_mem {cs : ConstraintMap} {kc : (ℕ × ℕ) × Constraint}
    (hmem : kc ∈ cs) : (lookupConstraint cs kc.1).isSome := by
  induction cs with
  | nil => cases hmem
  | cons x t ih =>
    unfold lookupConstraint
    rw [List.find?_cons]
    by_cases hx : (x.1 == kc.1) = true
    · simp [hx]
    · rw [Bool.not_eq_true] at hx
      rw [hx]
      rcases List.mem_cons.mp hmem with rfl | h
      · simp at hx
      · exact ih h

lemma deriver_eval_branch1 (L : HiltiLoader) {i1 i2 : ℕ}
    (h : rig_from_image i1 = rig_from_image i2) :
    priorIsError (get_relative_pose_prior L i1 i2) = false ∧
      priorIsSome (get_relative_pose_prior L i1 i2) = true := by
  unfold get_relative_pose_prior
  rw [if_pos h]
  exact ⟨rfl, rfl⟩

lemma deriver_eval_branch2 (L : HiltiLoader) {i1 i2 : ℕ}
    (h3 : rig_from_image i1 ≠ rig_from_image i2)
    (h1 : camera_from_image i1 = 2) (h2 : camera_from_image i2 = 2)
    (hs : (lookupConstraint L.constraints
      (rig_from_image i1, rig_from_image i2)).isSome) :
    priorIsError (get_relative_pose_prior L i1 i2) = false ∧
      priorIsSome (get_relative_pose_prior L i1 i2) = true := by
  unfold get_relative_pose_prior
  rw [if_neg h3, dif_pos ⟨h1, h2, hs⟩]
  exact ⟨rfl, rfl⟩

/-- Constructor-wise decidable equality for `Except`, so that concrete
evaluations of `get_relative_pose_priors` can be checked by `decide` (the
classical fallback instance does not reduce). -/
instance exceptDecidableEq {ε α : Type} [DecidableEq ε] [DecidableEq α] :
    DecidableEq (Except ε α)
  | Except.error e, Except.error e' =>
    if h : e = e' then isTrue (by rw [h])
    else isFalse (by intro hh; cases hh; exact h rfl)
  | Except.error _, Except.ok _ => isFalse (by intro hh; cases hh)
  | Except.ok _, Except.error _ => isFalse (by intro hh; cases hh)
  | Except.ok a, Except.ok a' =>
    if h : a = a' then isTrue (by rw [h])
    else isFalse (by intro hh; cases hh; exact h rfl)

/-! ### Claim C4: deduplication of the produced pair set -/

/-- A constraint stored in the non-canonical orientation `(1, 0)`. -/
def c4Con : Constraint := ⟨1, 0, Pose3.identity, 0, 1⟩

/-- Loader with 2 rigs, backbone enabled, and the single constraint stored as
`(1, 0)`. -/
def L4 : HiltiLoader :=
  ⟨2, 1, true, fun _ => Pose3.identity, 1, [Pose3.identity, Pose3.identity],
    [((1, 0), c4Con)]⟩

/-- C4 counterexample: with a constraint stored as `(1, 0)` and the backbone
enabled, the produced map holds the two distinct keys `(2, 7)` (from the
backbone) and `(7, 2)` (from the constraint), which represent the same
unordered image-index pair — the output is not deduplicated on canonical
ordering. -/
theorem C4_counterexample :
    get_relative_pose_priors L4 = Except.ok
      {(0, 2), (1, 2), (2, 3), (2, 4), (5, 7), (6, 7), (7, 8), (7, 9), (7, 2), (2, 7)} ∧
      ((2, 7) : ℕ × ℕ) ≠ (7, 2) := by
  constructor
  · decide
  · decide

/-- No two distinct keys of the set represent the same unordered pair. -/
def C4Deduplicated (s : Finset (ℕ × ℕ)) : Prop :=
  ∀ p ∈ s, ∀ q ∈ s, p.1 = q.2 → p.2 = q.1 → p = q

/-- C4 (amended): pairs are deduplicated as ordered pairs (a Python `set`);
star and backbone pairs are emitted in canonical `(min, max)` order but
constraint-derived pairs keep the stored key orientation, so the same
unordered pair can appear under both orientations when a constraint is stored
non-canonically (see the counterexample). Under the scenario-C configuration
— 3 rigs, no backbone, no subsampling — and with every constraint key stored
canonically (`a < b`), the output is exactly the 12 star pairs plus the
constraint-derived pairs, with no duplicate unordered pairs. -/
theorem C4_pair_set_amended (L : HiltiLoader)
    (hnum : L.num_rig_poses = 3) (hsub : L.subsample = 1)
    (hbb : L.add_backbone = false)
    (hkeys : ∀ kc ∈ L.constraints, kc.1.1 < kc.1.2) :
    get_relative_pose_priors L = Except.ok
      (star_pairs 3 1 ∪ constraint_pairs L.constraints) ∧
    (star_pairs 3 1).card = 12 ∧
    C4Deduplicated (star_pairs 3 1 ∪ constraint_pairs L.constraints) := by
  have hue : unique_pairs L = star_pairs 3 1 ∪ constraint_pairs L.constraints := by
    unfold unique_pairs
    rw [hnum, hsub, hbb]
    simp
  have hok : ∀ p ∈ unique_pairs L,
      priorIsError (get_relative_pose_prior L p.1 p.2) = false ∧
        priorIsSome (get_relative_pose_prior L p.1 p.2) = true := by
    intro p hp
    rw [hue] at hp
    rcases Finset.mem_union.mp hp with hstar | hcp
    · rcases star_pairs_mem hstar with ⟨r, _, _, hf⟩
      rcases hf with rfl | rfl | rfl | rfl <;>
        exact deriver_eval_branch1 L (by
          rw [(rig_cam_eval r _ (by decide)).1, (rig_cam_eval r _ (by decide)).1])
    · rcases constraint_pairs_mem hcp with ⟨kc, hmem, rfl⟩
      have hab := hkeys kc hmem
      refine deriver_eval_branch2 L ?_ ?_ ?_ ?_
      · rw [(rig_cam_eval kc.1.1 2 (by decide)).1,
          (rig_cam_eval kc.1.2 2 (by decide)).1]
        omega
      · exact (rig_cam_eval kc.1.1 2 (by decide)).2
      · exact (rig_cam_eval kc.1.2 2 (by decide)).2
      · rw [(rig_cam_eval kc.1.1 2 (by decide)).1,
          (rig_cam_eval kc.1.2 2 (by decide)).1]
        exact lookup_isSome_of_mem hmem
  refine ⟨?_, by decide, ?_⟩
  · unfold get_relative_pose_priors
    rw [if_neg ?_, Finset.filter_true_of_mem (fun p hp => (hok p hp).2), hue]
    rw [Finset.filter_eq_empty_iff.mpr (fun p hp => by rw [(hok p hp).1]; simp)]
    exact Finset.not_nonempty_empty
  · intro p hp q hq h1 h2
    rcases Finset.mem_union.mp hp with hps | hpc <;>
      rcases Finset.mem_union.mp hq with hqs | hqc
    · rcases star_pairs_mem hps with ⟨r, _, _, hf⟩
      rcases star_pairs_mem hqs with ⟨r', _, _, hf'⟩
      exfalso
      rcases hf with rfl | rfl | rfl | rfl <;> rcases hf' with rfl | rfl | rfl | rfl <;>
        (dsimp only at h1 h2;
         simp only [image_from_rig_and_camera, NUM_CAMS] at h1 h2; omega)
    · rcases star_pairs_mem hps with ⟨r, _, _, hf⟩
      rcases constraint_pairs_mem hqc with ⟨kc, hmem, rfl⟩
      exfalso
      rcases hf with rfl | rfl | rfl | rfl <;>
        (dsimp only at h1 h2;
         simp only [image_from_rig_and_camera, NUM_CAMS] at h1 h2; omega)
    · rcases constraint_pairs_mem hpc with ⟨kc, hmem, rfl⟩
      rcases star_pairs_mem hqs with ⟨r, _, _, hf⟩
      exfalso
      rcases hf with rfl | rfl | rfl | rfl <;>
        (dsimp only at h1 h2;
         simp only [image_from_rig_and_camera, NUM_CAMS] at h1 h2; omega)
    · rcases constraint_pairs_mem hpc with ⟨kc, hmem, rfl⟩
      rcases constraint_pairs_mem hqc with ⟨kc', hmem', rfl⟩
      exfalso
      have hk := hkeys kc hmem
      have hk' := hkeys kc' hmem'
      dsimp only at h1 h2
      simp only [image_from_rig_and_camera, NUM_CAMS] at h1 h2
      omega

/-- A canonically stored constraint for the witness loader. -/
def c4WitCon : Constraint := ⟨0, 1, Pose3.identity, 0, 1⟩

/-- Witness loader: 3 rigs, no backbone, one canonically keyed constraint. -/
def L4w : HiltiLoader :=
  ⟨3, 1, false, fun _ => Pose3.identity, 1, [], [((0, 1), c4WitCon)]⟩

/-- Witness for `C4_pair_set_amended` on `L4w`. -/
theorem C4_pair_set_amended_witness :
    (L4w.num_rig_poses = 3 ∧ L4w.subsample = 1 ∧ L4w.add_backbone = false ∧
      ∀ kc ∈ L4w.constraints, kc.1.1 < kc.1.2) ∧
    (get_relative_pose_priors L4w = Except.ok
      (star_pairs 3 1 ∪ constraint_pairs L4w.constraints) ∧
    (star_pairs 3 1).card = 12 ∧
    C4Deduplicated (star_pairs 3 1 ∪ constraint_pairs L4w.constraints)) :=
  ⟨⟨rfl, rfl, rfl, by decide⟩,
    C4_pair_set_amended L4w rfl rfl rfl (by decide)⟩

/-! ### Claim C10: subsampling thins the star but not the backbone -/

lemma star_form_not_mem_unique (L : HiltiLoader) (r c1 c2 : ℕ)
    (hc : (c1 = 0 ∧ c2 = 2) ∨ (c1 = 1 ∧ c2 = 2) ∨ (c1 = 2 ∧ c2 = 3) ∨
      (c1 = 2 ∧ c2 = 4))
    (hdvd : ¬ L.subsample ∣ r) :
    (image_from_rig_and_camera r c1, image_from_rig_and_camera r c2) ∉
      unique_pairs L := by
  intro hmem
  unfold unique_pairs at hmem
  rcases Finset.mem_union.mp hmem with hmem | hbbm
  · rcases Finset.mem_union.mp hmem with hstar | hcp
    · rcases star_pairs_mem hstar with ⟨r', hr', hdvd', hf⟩
      have hrr : r' = r := by
        rcases hf with h | h | h | h <;>
          (rw [Prod.mk.injEq] at h;
           simp only [image_from_rig_and_camera, NUM_CAMS] at h; omega)
      exact hdvd (hrr ▸ hdvd')
    · rcases constraint_pairs_mem hcp with ⟨kc, hmem', heq⟩
      rw [Prod.mk.injEq] at heq
      simp only [image_from_rig_and_camera, NUM_CAMS] at heq
      omega
  · cases hb : L.add_backbone
    · rw [hb] at hbbm
      simp at hbbm
    · rw [hb] at hbbm
      rw [if_pos rfl] at hbbm
      rcases Finset.mem_image.mp hbbm with ⟨a, ha, heq⟩
      rw [Prod.mk.injEq] at heq
      simp only [image_from_rig_and_camera, NUM_CAMS] at heq
      omega

/-- C10: with a subsample stride greater than 1, the pair set built by
`get_relative_pose_priors` contains the intra-rig star pairs only for rig
indices that are multiples of the stride (rigs off the stride get no star
pairs at all), while the backbone, when enabled, still contributes a
reference-camera pair for every consecutive rig pair `(a, a + 1)` with
`a < num_rig_poses - 1`, independently of the stride. -/
theorem C10_subsample_star_backbone (L : HiltiLoader) (hs : 1 < L.subsample) :
    (∀ r : ℕ, ¬ L.subsample ∣ r →
      (image_from_rig_and_camera r 0, image_from_rig_and_camera r 2) ∉ unique_pairs L ∧
      (image_from_rig_and_camera r 1, image_from_rig_and_camera r 2) ∉ unique_pairs L ∧
      (image_from_rig_and_camera r 2, image_from_rig_and_camera r 3) ∉ unique_pairs L ∧
      (image_from_rig_and_camera r 2, image_from_rig_and_camera r 4) ∉ unique_pairs L) ∧
    (∀ r : ℕ, r < L.num_rig_poses → L.subsample ∣ r →
      (image_from_rig_and_camera r 0, image_from_rig_and_camera r 2) ∈ unique_pairs L ∧
      (image_from_rig_and_camera r 1, image_from_rig_and_camera r 2) ∈ unique_pairs L ∧
      (image_from_rig_and_camera r 2, image_from_rig_and_camera r 3) ∈ unique_pairs L ∧
      (image_from_rig_and_camera r 2, image_from_rig_and_camera r 4) ∈ unique_pairs L) ∧
    (L.add_backbone = true → ∀ a : ℕ, a < L.num_rig_poses - 1 →
      (image_from_rig_and_camera a 2, image_from_rig_and_camera (a + 1) 2) ∈
        unique_pairs L) := by
  refine ⟨?_, ?_, ?_⟩
  · intro r hdvd
    exact ⟨star_form_not_mem_unique L r 0 2 (Or.inl ⟨rfl, rfl⟩) hdvd,
      star_form_not_mem_unique L r 1 2 (Or.inr (Or.inl ⟨rfl, rfl⟩)) hdvd,
      star_form_not_mem_unique L r 2 3 (Or.inr (Or.inr (Or.inl ⟨rfl, rfl⟩))) hdvd,
      star_form_not_mem_unique L r 2 4 (Or.inr (Or.inr (Or.inr ⟨rfl, rfl⟩))) hdvd⟩
  · intro r hr hdvd
    have hall := star_pairs_mem_all L.num_rig_poses L.subsample r hr hdvd
    exact ⟨Finset.mem_union_left _ (Finset.mem_union_left _ hall.1),
      Finset.mem_union_left _ (Finset.mem_union_left _ hall.2.1),
      Finset.mem_union_left _ (Finset.mem_union_left _ hall.2.2.1),
      Finset.mem_union_left _ (Finset.mem_union_left _ hall.2.2.2)⟩
  · intro hb a ha
    apply Finset.mem_union_right
    rw [hb, if_pos rfl]
    exact Finset.mem_image.mpr ⟨a, Finset.mem_range.mpr ha, rfl⟩

/-- Loader with 4 rigs, subsample stride 2, backbone enabled. -/
def L10 : HiltiLoader := ⟨4, 2, true, fun _ => Pose3.identity, 1, [], []⟩

/-- Witness for `C10_subsample_star_backbone` on `L10`: rig 1 is off the
stride and gets no star pair, rig 2 is on the stride and does, and the
backbone pair `(1, 2)` is present regardless. -/
theorem C10_subsample_star_backbone_witness :
    1 < L10.subsample ∧
      (¬ L10.subsample ∣ 1 ∧
        (image_from_rig_and_camera 1 0, image_from_rig_and_camera 1 2) ∉
          unique_pairs L10) ∧
      (2 < L10.num_rig_poses ∧ L10.subsample ∣ 2 ∧
        (image_from_rig_and_camera 2 0, image_from_rig_and_camera 2 2) ∈
          unique_pairs L10) ∧
      (L10.add_backbone = true ∧ 1 < L10.num_rig_poses - 1 ∧
        (image_from_rig_and_camera 1 2, image_from_rig_and_camera 2 2) ∈
          unique_pairs L10) :=
  ⟨by decide,
    ⟨by decide,
      ((C10_subsample_star_backbone L10 (by decide)).1 1 (by decide)).1⟩,
    ⟨by decide, by decide,
      ((C10_subsample_star_backbone L10 (by decide)).2.1 2 (by decide) (by decide)).1⟩,
    ⟨rfl, by decide,
      (C10_subsample_star_backbone L10 (by decide)).2.2 rfl 1 (by decide)⟩⟩

/-! ### Claim C9: the pure pipeline runs to completion (but the source blocks
in the debugger) -/

/-- Loader with a single rig pose. -/
def L9 : HiltiLoader := ⟨1, 1, true, fun _ => Pose3.identity, 1, [], []⟩

/-- C9: the data-flow of `get_relative_pose_priors`, modelled as a pure batch
computation over fully-loaded immutable inputs, evaluates to a result on a
concrete loader — the computation itself neither suspends nor waits. (The
source, however, contains a `pdb.set_trace()` debugger breakpoint at lines
445-447 that blocks on interactive input on every call; see the results for
claim C9.) -/
theorem C9_pure_pipeline_completes :
    get_relative_pose_priors L9 = Except.ok {(0, 2), (1, 2), (2, 3), (2, 4)} := by
  decide

end

end Hilti
